import Mathlib

/-!
Verification of the BillHive server (`server.js`, `email.js`, `emailTemplate.js`)
against its natural-language specification.  JavaScript strings are modelled as
Lean `String`s (all characters involved are plain Unicode scalars, so UTF-16
code-unit operations such as `slice`, `includes` and per-character iteration
agree with Lean's character-level operations), JSON values as an inductive
`Json` type, and the SQLite-backed store as tenant-and-key-indexed partial
maps.  Monetary amounts are modelled in exact non-negative integer cents: the
spec's bill amounts are non-negative decimals with two fractional digits, on
which JavaScript's `Number.prototype.toFixed(2)` agrees with the exact-cents
rendering below for every magnitude the application can store.
-/

namespace BillHive

/-! ### JavaScript string primitives

`listPre pat l` is `pat.isPrefixOf l`; `listHas pat l` is substring search,
the model of JavaScript's `String.prototype.includes`. -/

def listPre : List Char → List Char → Bool
  | [], _ => true
  | _ :: _, [] => false
  | a :: as, b :: bs => a == b && listPre as bs

def listHas (pat : List Char) : List Char → Bool
  | [] => pat.isEmpty
  | c :: cs => listPre pat (c :: cs) || listHas pat cs

/-- Model of JavaScript `s.includes(pat)`. -/
def strHas (s pat : String) : Bool :=
  listHas pat.data s.data

/-! ### JavaScript truthiness on optional string fields

A field absent from a config object (`undefined`) and one holding the empty
string are both falsy; every other string is truthy. -/

def jsTruthy : Option String → Bool
  | none => false
  | some s => !(s == "")

/-! ### Email configuration (`email.js` header comment, `maskConfig`, and the
merge in `PUT /api/email/config` of `server.js`)

The documented config shape.  All string-valued fields are `Option String`
(absent vs. present); `smtpPort` and `smtpSecure` keep their documented types. -/

structure EmailConfig where
  provider : Option String
  fromName : Option String
  fromEmail : Option String
  mailgunApiKey : Option String
  mailgunDomain : Option String
  mailgunRegion : Option String
  sendgridApiKey : Option String
  resendApiKey : Option String
  smtpHost : Option String
  smtpPort : Option Int
  smtpSecure : Option Bool
  smtpUser : Option String
  smtpPass : Option String

/-- The config with every field absent: `{}`. -/
def emptyCfg : EmailConfig :=
  ⟨none, none, none, none, none, none, none, none, none, none, none, none, none⟩

/-- The four secret field names iterated over by both `maskConfig`
(`email.js`) and the merge in `PUT /api/email/config` (`server.js`). -/
inductive SecretField
  | mailgunApiKey
  | sendgridApiKey
  | resendApiKey
  | smtpPass

def getSF : SecretField → EmailConfig → Option String
  | .mailgunApiKey, c => c.mailgunApiKey
  | .sendgridApiKey, c => c.sendgridApiKey
  | .resendApiKey, c => c.resendApiKey
  | .smtpPass, c => c.smtpPass

/-- The fixed redaction marker appended by `maskConfig`: twelve bullets. -/
def maskMarker : String := "••••••••••••"

/-- The substring tested by the merge's `includes('••••')`: four bullets. -/
def maskCheck : String := "••••"

/-- `email.js` line 150: `if (masked[f]) masked[f] = masked[f].slice(0, 4) + '••••••••••••';` -/
def maskField (v : Option String) : Option String :=
  if jsTruthy v then some ((v.getD "").take 4 ++ maskMarker) else v

/-- Effect of `maskConfig`'s `forEach` over the four secret fields on a
(non-null) config object; all other fields are copied by `{ ...cfg }`. -/
def maskCfgCore (c : EmailConfig) : EmailConfig :=
  { c with
    mailgunApiKey := maskField c.mailgunApiKey
    sendgridApiKey := maskField c.sendgridApiKey
    resendApiKey := maskField c.resendApiKey
    smtpPass := maskField c.smtpPass }

/-- `maskConfig` of `email.js` (lines 145-153), including the `null` guard. -/
def maskConfig : Option EmailConfig → Option EmailConfig
  | none => none
  | some c => some (maskCfgCore c)

/-- Field-wise effect of the object spread `{ ...existing, ...body }`: a key
present in `body` (even with an empty-string value) wins. -/
def spreadF {α : Type} (ex bo : Option α) : Option α :=
  if bo.isSome then bo else ex

/-- `server.js` lines 186-191 for one secret field: the spread result, except
that a truthy incoming value containing `'••••'` keeps the existing value. -/
def mergeSecret (ex bo : Option String) : Option String :=
  if jsTruthy bo && strHas (bo.getD "") maskCheck then ex else spreadF ex bo

/-- The merge performed by `PUT /api/email/config` (`server.js` lines 184-191):
spread of `body` over `existing`, then the secret-field fix-up. -/
def mergeConfig (ex bo : EmailConfig) : EmailConfig where
  provider := spreadF ex.provider bo.provider
  fromName := spreadF ex.fromName bo.fromName
  fromEmail := spreadF ex.fromEmail bo.fromEmail
  mailgunApiKey := mergeSecret ex.mailgunApiKey bo.mailgunApiKey
  mailgunDomain := spreadF ex.mailgunDomain bo.mailgunDomain
  mailgunRegion := spreadF ex.mailgunRegion bo.mailgunRegion
  sendgridApiKey := mergeSecret ex.sendgridApiKey bo.sendgridApiKey
  resendApiKey := mergeSecret ex.resendApiKey bo.resendApiKey
  smtpHost := spreadF ex.smtpHost bo.smtpHost
  smtpPort := spreadF ex.smtpPort bo.smtpPort
  smtpSecure := spreadF ex.smtpSecure bo.smtpSecure
  smtpUser := spreadF ex.smtpUser bo.smtpUser
  smtpPass := mergeSecret ex.smtpPass bo.smtpPass

/-- One `PUT /api/email/config` request (`server.js` lines 177-194): rejected
with a 400 (store untouched) when `body.provider` is falsy, otherwise the
merged object replaces the stored row. -/
def putEmailCfgStep (stored : Option EmailConfig) (body : EmailConfig) : Option EmailConfig :=
  if jsTruthy body.provider then some (mergeConfig (stored.getD emptyCfg) body) else stored

/-- The stored email configuration after a sequence of `PUT /api/email/config`
requests, starting from an empty `email_config` table (the row is written
nowhere else in the program). -/
def storedAfter (bodies : List EmailConfig) : Option EmailConfig :=
  bodies.foldl putEmailCfgStep none

/-! ### JSON values and the tenant-scoped store (`server.js`)

Stored rows hold opaque serialized text (`TEXT NOT NULL` columns); the
serializer `JSON.stringify` and deserializer `JSON.parse` are runtime-library
functions, not repository code, so they enter the model as function
parameters (`strfy`, `parse`).  A value is JSON-serializable exactly when
`parse (strfy v) = some v`, which is the hypothesis the round-trip claims
carry. -/

inductive Json where
  | null
  | bool (b : Bool)
  | num (n : Int)
  | str (s : String)
  | arr (xs : List Json)
  | obj (fields : List (String × Json))

/-- `user_state` and `monthly_data`: tenant-and-key-indexed partial maps of
serialized payloads. -/
structure Store where
  settings : String → String → Option String
  monthly : String → String → Option String

def emptyStore : Store :=
  ⟨fun _ _ => none, fun _ _ => none⟩

/-- Point update of a two-key partial map (the effect of
`INSERT OR REPLACE` on a primary-keyed row; `none` models `DELETE`). -/
def updFun (f : String → String → Option String) (u k : String) (v : Option String) :
    String → String → Option String :=
  fun u' k' => if u' = u ∧ k' = k then v else f u' k'

/-- `stmts.setState.run(userId, key, value)`. -/
def setStateRun (st : Store) (u k v : String) : Store :=
  { st with settings := updFun st.settings u k (some v) }

/-- `stmts.setMonth.run(userId, key, value)`. -/
def setMonthRun (st : Store) (u k v : String) : Store :=
  { st with monthly := updFun st.monthly u k (some v) }

/-- `stmts.deleteMonth.run(userId, key)`. -/
def delMonthRun (st : Store) (u k : String) : Store :=
  { st with monthly := updFun st.monthly u k none }

/-- An environment oracle deciding whether one individual SQLite write
(given tenant, key, serialized value) succeeds; failures (disk errors and the
like) come from outside the program. -/
def Oracle : Type := String → String → String → Bool

/-- One settings write inside a transaction body: succeeds and updates the
draft state, or raises. -/
def setStateE (os : Oracle) (st : Store) (u k v : String) : Except Unit Store :=
  if os u k v then .ok (setStateRun st u k v) else .error ()

/-- One monthly write inside a transaction body. -/
def setMonthE (om : Oracle) (st : Store) (u k v : String) : Except Unit Store :=
  if om u k v then .ok (setMonthRun st u k v) else .error ()

/-- `better-sqlite3`'s `db.transaction(...)`: run the body; commit its result
on success, roll everything back (the caller observes the prior state) if the
body throws. -/
def runTxn (body : Store → Except Unit Store) (st : Store) : Store :=
  match body st with
  | .ok st' => st'
  | .error _ => st

/-- Body of the `importAll` transaction (`server.js` lines 156-159): all
settings entries, then all monthly entries, each serialized with
`JSON.stringify`. -/
def importBody (os om : Oracle) (strfy : Json → String) (u : String)
    (s m : List (String × Json)) (st : Store) : Except Unit Store := do
  let st1 ← s.foldlM (fun acc kv => setStateE os acc u kv.1 (strfy kv.2)) st
  m.foldlM (fun acc kv => setMonthE om acc u kv.1 (strfy kv.2)) st1

/-- `POST /api/import` (`server.js` lines 154-162): the body wrapped in a
transaction. -/
def importApi (os om : Oracle) (strfy : Json → String) (u : String)
    (s m : List (String × Json)) (st : Store) : Store :=
  runTxn (importBody os om strfy u s m) st

/-- The failure-free meaning of the import batch: every write applied in
order. -/
def importPure (strfy : Json → String) (u : String)
    (s m : List (String × Json)) (st : Store) : Store :=
  m.foldl (fun acc kv => setMonthRun acc u kv.1 (strfy kv.2))
    (s.foldl (fun acc kv => setStateRun acc u kv.1 (strfy kv.2)) st)

/-- Body of the `saveMany` transaction (`server.js` lines 104-108). -/
def saveManyBody (os : Oracle) (strfy : Json → String) (u : String)
    (entries : List (String × Json)) (st : Store) : Except Unit Store :=
  entries.foldlM (fun acc kv => setStateE os acc u kv.1 (strfy kv.2)) st

/-- `PUT /api/state` (`server.js` lines 101-111): the multi-key full-state
save, wrapped in a transaction. -/
def saveManyApi (os : Oracle) (strfy : Json → String) (u : String)
    (entries : List (String × Json)) (st : Store) : Store :=
  runTxn (saveManyBody os strfy u entries) st

/-- The failure-free meaning of the full-state save. -/
def saveManyPure (strfy : Json → String) (u : String)
    (entries : List (String × Json)) (st : Store) : Store :=
  entries.foldl (fun acc kv => setStateRun acc u kv.1 (strfy kv.2)) st

/-- The route-level month-key validation `/^\d{4}-\d{2}$/.test(key)`
(`server.js` line 134). -/
def matchesMonthKey (k : String) : Bool :=
  match k.data with
  | [a, b, c, d, e, f, g] =>
    a.isDigit && b.isDigit && c.isDigit && d.isDigit && e == '-' && f.isDigit && g.isDigit
  | _ => false

/-- `PUT /api/months/:key` (`server.js` lines 132-137): 400 on an invalid
month key, otherwise a single serialized write. -/
def putMonthApi (strfy : Json → String) (st : Store) (u k : String) (v : Json) :
    Except String Store :=
  if matchesMonthKey k then .ok (setMonthRun st u k (strfy v))
  else .error "Invalid month key (expected YYYY-MM)"

/-- `GET /api/months/:key` (`server.js` lines 126-130): `{}` when the row is
absent, `{}` when `JSON.parse` throws, the parsed value otherwise. -/
def getMonthApi (parse : String → Option Json) (st : Store) (u k : String) : Json :=
  match st.monthly u k with
  | none => .obj []
  | some raw => (parse raw).getD (.obj [])

/-- The row-processing of `GET /api/state` (`server.js` line 97): on a
deserialization failure the raw stored text is kept as the entry's value. -/
def stateFromRows (parse : String → Option Json) (rows : List (String × String)) :
    List (String × Json) :=
  rows.map (fun r => (r.1, match parse r.2 with | some j => j | none => .str r.2))

/-- The row-processing of `GET /api/months` (`server.js` line 122): entries
whose payload fails to deserialize are silently skipped. -/
def monthsFromRows (parse : String → Option Json) (rows : List (String × String)) :
    List (String × Json) :=
  rows.filterMap (fun r => (parse r.2).map fun j => (r.1, j))

/-! ### Reachable monthly states (claim C5)

The operations of the program that touch `monthly_data`, applied in sequence
from an empty database.  The import step is its failure-free meaning: a
failing import rolls back and leaves the store unchanged, so failures only
shrink the set of reachable states. -/

inductive StOp where
  | putMonth (u k : String) (v : Json)
  | importB (u : String) (s m : List (String × Json))
  | delMonth (u k : String)

def stepOp (strfy : Json → String) (st : Store) : StOp → Store
  | .putMonth u k v => if matchesMonthKey k then setMonthRun st u k (strfy v) else st
  | .importB u s m => importPure strfy u s m st
  | .delMonth u k => delMonthRun st u k

def runOps (strfy : Json → String) (ops : List StOp) : Store :=
  ops.foldl (stepOp strfy) emptyStore

/-- The claimed invariant: every stored monthly record's key matches
`YYYY-MM`. -/
def monthsValid (st : Store) : Prop :=
  ∀ u k, st.monthly u k ≠ none → matchesMonthKey k = true

/-- An operation whose monthly writes all carry pattern-matching keys.  The
single-month write and the delete are unconstrained (the route validates the
former itself; the latter stores nothing). -/
def opValid : StOp → Prop
  | .importB _ _ m => ∀ kv ∈ m, matchesMonthKey kv.1 = true
  | _ => True

/-! ### Provider dispatch (`email.js` `sendEmail`, lines 130-142)

`NetAction` records which transport integration a successful dispatch would
invoke; an `Except.error` result throws before any network request is
attempted. -/

inductive NetAction where
  | mailgun
  | sendgrid
  | resend
  | smtp

def sendEmailM (cfg : Option EmailConfig) (toAddr _subject _html _text : String) :
    Except String NetAction :=
  match cfg with
  | none => .error "No email provider configured"
  | some c =>
    if jsTruthy c.provider = false then .error "No email provider configured"
    else if jsTruthy c.fromEmail = false then .error "No sender email configured"
    else if toAddr = "" then .error "No recipient email address"
    else
      match c.provider.getD "" with
      | "mailgun" => .ok .mailgun
      | "sendgrid" => .ok .sendgrid
      | "resend" => .ok .resend
      | "smtp" => .ok .smtp
      | p => .error ("Unknown provider: " ++ p)

/-! ### Runtime string-formatting primitives used by `emailTemplate.js`

`toFixed2` renders exact cents the way `Number.prototype.toFixed(2)` renders
the corresponding two-decimal value; `encodeURIComponent` and the JSON string
literal encoder follow the ECMAScript definitions character by character. -/

/-- Uppercase hex digit (as used by `encodeURIComponent`). -/
def hexDig (n : Nat) : Char :=
  if n < 10 then Char.ofNat (48 + n) else Char.ofNat (55 + n)

/-- Lowercase hex digit (as used by `JSON.stringify` escapes). -/
def hexLow (n : Nat) : Char :=
  if n < 10 then Char.ofNat (48 + n) else Char.ofNat (87 + n)

/-- UTF-8 bytes of a Unicode scalar value. -/
def utf8Bytes (c : Char) : List Nat :=
  let n := c.toNat
  if n < 0x80 then [n]
  else if n < 0x800 then [0xC0 + n / 0x40, 0x80 + n % 0x40]
  else if n < 0x10000 then [0xE0 + n / 0x1000, 0x80 + n / 0x40 % 0x40, 0x80 + n % 0x40]
  else [0xF0 + n / 0x40000, 0x80 + n / 0x1000 % 0x40, 0x80 + n / 0x40 % 0x40, 0x80 + n % 0x40]

/-- One character of `encodeURIComponent` output: unreserved characters pass
through, everything else is percent-encoded byte-wise. -/
def encChar (c : Char) : String :=
  if c.isAlpha || c.isDigit || c ∈ ['-', '_', '.', '!', '~', '*', '\x27', '(', ')'] then
    String.singleton c
  else
    String.join ((utf8Bytes c).map fun b => String.mk ['%', hexDig (b / 16), hexDig (b % 16)])

def encodeList : List Char → String
  | [] => ""
  | c :: cs => encChar c ++ encodeList cs

/-- ECMAScript `encodeURIComponent`. -/
def encodeURIComponent (s : String) : String :=
  encodeList s.data

/-- One character inside a `JSON.stringify` string literal. -/
def jsonEscChar (c : Char) : String :=
  if c = '"' then "\\\""
  else if c = '\\' then "\\\\"
  else if c = '\n' then "\\n"
  else if c = '\r' then "\\r"
  else if c = '\t' then "\\t"
  else if c = '\x08' then "\\b"
  else if c = '\x0c' then "\\f"
  else if c.toNat < 32 then "\\u00" ++ String.mk [hexLow (c.toNat / 16), hexLow (c.toNat % 16)]
  else String.singleton c

def jsonEscList : List Char → String
  | [] => ""
  | c :: cs => jsonEscChar c ++ jsonEscList cs

/-- `JSON.stringify` of a string value. -/
def jsonStrLit (s : String) : String :=
  "\"" ++ jsonEscList s.data ++ "\""

/-- `Number.prototype.toFixed(2)` on an exact amount of `cents`. -/
def toFixed2 (cents : Nat) : String :=
  Nat.repr (cents / 100) ++ "." ++
    (if cents % 100 < 10 then "0" ++ Nat.repr (cents % 100) else Nat.repr (cents % 100))

/-- `l` with the first occurrence of `'@'` (anywhere) removed. -/
def removeAtList : List Char → List Char
  | [] => []
  | c :: cs => if c = '@' then cs else c :: removeAtList cs

/-- JavaScript `payId.replace('@', '')`: a string pattern replaces only the
first occurrence, wherever it sits. -/
def jsReplaceAt (s : String) : String :=
  ⟨removeAtList s.data⟩

/-- JavaScript `Array.prototype.join('\n')`. -/
def joinNl : List String → String
  | [] => ""
  | [x] => x
  | x :: y :: ys => x ++ "\n" ++ joinNl (y :: ys)

/-- JavaScript `Array.prototype.join('')`. -/
def joinAll : List String → String
  | [] => ""
  | x :: xs => x ++ joinAll xs

/-- JavaScript `String.prototype.repeat`. -/
def strRepeat (s : String) : Nat → String
  | 0 => ""
  | n + 1 => s ++ strRepeat s n

/-- JavaScript `String.prototype.padEnd(n)` (pads with spaces). -/
def padEnd (s : String) (n : Nat) : String :=
  s ++ strRepeat " " (n - s.length)

/-! ### The email template builder (`emailTemplate.js`, `buildEmailHtml`) -/

/-- The options object of `buildEmailHtml`.  `greeting`, `accentColor`,
`payId` and `fromName` may be absent; bill amounts and the total are exact
cents. -/
structure EmailOpts where
  greeting : Option String
  personName : String
  accentColor : Option String
  monthLabel : String
  bills : List (String × Nat)
  total : Nat
  payMethod : String
  payId : Option String
  fromName : Option String

/-- `${greeting || ('Hi ' + personName + ',')}`. -/
def greetOf (greeting : Option String) (personName : String) : String :=
  match greeting with
  | some g => if g = "" then "Hi " ++ personName ++ "," else g
  | none => "Hi " ++ personName ++ ","

/-- `JSON.stringify({ name: personName, token: payId, amount: total.toFixed(2) })`
(`emailTemplate.js` line 29). -/
def zelleDataStr (personName payId : String) (total : Nat) : String :=
  "\x7b\"name\":" ++ jsonStrLit personName ++ ",\"token\":" ++ jsonStrLit payId ++
    ",\"amount\":" ++ jsonStrLit (toFixed2 total) ++ "\x7d"

/-- The Zelle deep link (`emailTemplate.js` line 30). -/
def zelleUrlOf (personName payId : String) (total : Nat) : String :=
  "https://enroll.zellepay.com/qr-codes?data=" ++
    encodeURIComponent (zelleDataStr personName payId total)

/-- The Venmo charge deep link (`emailTemplate.js` lines 46-48); `handle` is
the identifier after `payId.replace('@', '')`. -/
def venmoUrlOf (handle : String) (total : Nat) (monthLabel : String) : String :=
  "https://venmo.com/" ++ handle ++ "?txn=charge&amount=" ++ toFixed2 total ++
    "&note=" ++ encodeURIComponent ("Bills " ++ monthLabel)

/-- The Zelle payment-button block (`emailTemplate.js` lines 31-44). -/
def zelleButtonHtml (accentColor personName payId : String) (total : Nat) : String :=
  "
      <tr><td align=\"center\" style=\"padding:28px 0 8px;\">
        <a href=\"" ++ zelleUrlOf personName payId total ++ "\"
           style=\"display:inline-block;background:" ++ accentColor ++ ";color:#0c0d0f;text-decoration:none;
                  font-family:Arial,sans-serif;font-weight:700;font-size:15px;
                  padding:14px 36px;border-radius:8px;letter-spacing:.02em;\">
          💰 Pay via Zelle — $" ++ toFixed2 total ++ "
        </a>
      </td></tr>
      <tr><td align=\"center\" style=\"padding:0 0 8px;\">
        <span style=\"font-size:11px;color:#6b7280;font-family:Arial,sans-serif;\">
          Zelle to " ++ payId ++ "
        </span>
      </td></tr>"

/-- The Venmo payment-button block (`emailTemplate.js` lines 49-62). -/
def venmoButtonHtml (accentColor handle : String) (total : Nat) (monthLabel : String) : String :=
  "
      <tr><td align=\"center\" style=\"padding:28px 0 8px;\">
        <a href=\"" ++ venmoUrlOf handle total monthLabel ++ "\"
           style=\"display:inline-block;background:" ++ accentColor ++ ";color:#0c0d0f;text-decoration:none;
                  font-family:Arial,sans-serif;font-weight:700;font-size:15px;
                  padding:14px 36px;border-radius:8px;letter-spacing:.02em;\">
          💸 Pay via Venmo — $" ++ toFixed2 total ++ "
        </a>
      </td></tr>
      <tr><td align=\"center\" style=\"padding:0 0 8px;\">
        <span style=\"font-size:11px;color:#6b7280;font-family:Arial,sans-serif;\">
          Venmo @" ++ handle ++ "
        </span>
      </td></tr>"

/-- The static total block for other payment methods (`emailTemplate.js`
lines 64-71); `accentBg`/`accentBorder` are `accentColor + '22'` / `+ '55'`. -/
def noneButtonHtml (accentColor : String) (total : Nat) : String :=
  "
      <tr><td align=\"center\" style=\"padding:28px 0 8px;\">
        <div style=\"display:inline-block;background:" ++ (accentColor ++ "22") ++ ";border:1px solid " ++ (accentColor ++ "55") ++ ";
                    color:" ++ accentColor ++ ";font-family:Arial,sans-serif;font-weight:700;font-size:15px;
                    padding:14px 36px;border-radius:8px;letter-spacing:.02em;\">
          Total Due: $" ++ toFixed2 total ++ "
        </div>
      </td></tr>"

/-- The payment-button selection (`emailTemplate.js` lines 27-72). -/
def payButtonOf (accentColor personName monthLabel : String) (total : Nat)
    (payMethod : String) (payId : Option String) : String :=
  if payMethod = "zelle" && jsTruthy payId then
    zelleButtonHtml accentColor personName (payId.getD "") total
  else if payMethod = "venmo" && jsTruthy payId then
    venmoButtonHtml accentColor (jsReplaceAt (payId.getD "")) total monthLabel
  else
    noneButtonHtml accentColor total

/-- One bill table row (`emailTemplate.js` lines 75-82). -/
def billRowHtml (accentColor : String) (b : String × Nat) : String :=
  "
    <tr>
      <td style=\"padding:10px 16px;font-family:Arial,sans-serif;font-size:13px;
                 color:#d1d5db;border-bottom:1px solid #2a2d31;\">" ++ b.1 ++ "</td>
      <td style=\"padding:10px 16px;font-family:Arial,sans-serif;font-size:13px;
                 color:" ++ accentColor ++ ";font-weight:600;text-align:right;
                 border-bottom:1px solid #2a2d31;\">$" ++ toFixed2 b.2 ++ "</td>
    </tr>"

def billRowsOf (accentColor : String) (bills : List (String × Nat)) : String :=
  joinAll (bills.map (billRowHtml accentColor))

/-- The full HTML document of `buildEmailHtml` (`emailTemplate.js` lines
84-198), with every template interpolation spliced in source order. -/
def htmlOf (opts : EmailOpts) : String :=
  let accentColor := opts.accentColor.getD "#a8e063"
  let fromName := opts.fromName.getD "BillFlow"
  "<!DOCTYPE html>
<html lang=\"en\">
<head><meta charset=\"UTF-8\"><meta name=\"viewport\" content=\"width=device-width,initial-scale=1.0\">
<title>Bills for " ++ opts.monthLabel ++ "</title></head>
<body style=\"margin:0;padding:0;background-color:#0c0d0f;font-family:Arial,sans-serif;\">

<table width=\"100%\" cellpadding=\"0\" cellspacing=\"0\" style=\"background:#0c0d0f;padding:32px 16px;\">
<tr><td align=\"center\">
<table width=\"560\" cellpadding=\"0\" cellspacing=\"0\" style=\"max-width:560px;width:100%;\">

  <!-- Header / Logo -->
  <tr>
    <td style=\"padding:0 0 24px;\">
      <table cellpadding=\"0\" cellspacing=\"0\">
        <tr>
          <td style=\"background:" ++ accentColor ++ ";width:36px;height:36px;border-radius:8px;
                     text-align:center;vertical-align:middle;\">
            <span style=\"font-size:16px;line-height:36px;\">🏠</span>
          </td>
          <td style=\"padding-left:10px;\">
            <span style=\"font-family:Arial,sans-serif;font-weight:900;font-size:20px;color:#f9fafb;\">Bill</span><span style=\"font-family:Arial,sans-serif;font-weight:900;font-size:20px;color:" ++ accentColor ++ ";\">Flow</span>
            <div style=\"font-size:10px;color:#6b7280;letter-spacing:.12em;text-transform:uppercase;margin-top:1px;\">household manager</div>
          </td>
        </tr>
      </table>
    </td>
  </tr>

  <!-- Card -->
  <tr>
    <td style=\"background:#16181c;border:1px solid #2a2d31;border-radius:12px;overflow:hidden;\">
      <table width=\"100%\" cellpadding=\"0\" cellspacing=\"0\">

        <!-- Card header accent bar -->
        <tr>
          <td style=\"background:" ++ accentColor ++ ";height:4px;font-size:0;line-height:0;\">&nbsp;</td>
        </tr>

        <!-- Greeting -->
        <tr>
          <td colspan=\"2\" style=\"padding:28px 28px 8px;\">
            <div style=\"font-size:22px;font-weight:700;color:#f9fafb;font-family:Arial,sans-serif;\">
              " ++ greetOf opts.greeting opts.personName ++ "
            </div>
            <div style=\"font-size:14px;color:#9ca3af;margin-top:6px;font-family:Arial,sans-serif;\">
              Here\x27s your share of the household bills for <strong style=\"color:#f9fafb;\">" ++ opts.monthLabel ++ "</strong>.
            </div>
          </td>
        </tr>

        <!-- Bill table -->
        <tr>
          <td colspan=\"2\" style=\"padding:20px 28px 0;\">
            <table width=\"100%\" cellpadding=\"0\" cellspacing=\"0\"
                   style=\"border:1px solid #2a2d31;border-radius:8px;overflow:hidden;border-collapse:separate;border-spacing:0;\">
              <thead>
                <tr style=\"background:#1e2024;\">
                  <th style=\"padding:10px 16px;font-family:Arial,sans-serif;font-size:11px;
                             font-weight:600;color:#6b7280;text-align:left;text-transform:uppercase;
                             letter-spacing:.08em;\">Bill</th>
                  <th style=\"padding:10px 16px;font-family:Arial,sans-serif;font-size:11px;
                             font-weight:600;color:#6b7280;text-align:right;text-transform:uppercase;
                             letter-spacing:.08em;\">Your Share</th>
                </tr>
              </thead>
              <tbody>
                " ++ billRowsOf accentColor opts.bills ++ "
              </tbody>
              <tfoot>
                <tr style=\"background:#1e2024;\">
                  <td style=\"padding:12px 16px;font-family:Arial,sans-serif;font-size:13px;
                             font-weight:700;color:#f9fafb;\">Total</td>
                  <td style=\"padding:12px 16px;font-family:Arial,sans-serif;font-size:16px;
                             font-weight:900;color:" ++ accentColor ++ ";text-align:right;\">
                    $" ++ toFixed2 opts.total ++ "
                  </td>
                </tr>
              </tfoot>
            </table>
          </td>
        </tr>

        <!-- Payment button -->
        <table width=\"100%\" cellpadding=\"0\" cellspacing=\"0\">
          " ++ payButtonOf accentColor opts.personName opts.monthLabel opts.total opts.payMethod opts.payId ++ "
        </table>

        <!-- Footer -->
        <tr>
          <td colspan=\"2\" style=\"padding:24px 28px;border-top:1px solid #2a2d31;\">
            <div style=\"font-size:12px;color:#6b7280;font-family:Arial,sans-serif;\">
              Sent by " ++ fromName ++ " via BillFlow &nbsp;·&nbsp;
              <span style=\"color:#4b5563;\">Reply to this email if you have any questions.</span>
            </div>
          </td>
        </tr>

      </table>
    </td>
  </tr>

  <!-- Footer -->
  <tr>
    <td style=\"padding:20px 0 0;text-align:center;\">
      <span style=\"font-size:11px;color:#374151;font-family:Arial,sans-serif;\">
        BillFlow · Household Bill Manager
      </span>
    </td>
  </tr>

</table>
</td></tr>
</table>
</body>
</html>"

/-- One plain-text bill line (`emailTemplate.js` line 206). -/
def textBillLine (b : String × Nat) : String :=
  "  " ++ padEnd b.1 24 ++ " $" ++ toFixed2 b.2

/-- The plain-text payment instruction (`emailTemplate.js` lines 211-213). -/
def payLineOf (payMethod : String) (payId : Option String) : String :=
  if payMethod = "zelle" && jsTruthy payId then
    "Please pay via Zelle to " ++ payId.getD "" ++ "."
  else if payMethod = "venmo" && jsTruthy payId then
    "Please pay via Venmo @" ++ jsReplaceAt (payId.getD "") ++ "."
  else
    "Please send your share when you get a chance."

/-- The plain-text fallback of `buildEmailHtml` (`emailTemplate.js` lines
201-216): an array of lines joined with `'\n'`. -/
def textOf (opts : EmailOpts) : String :=
  joinNl
    ([greetOf opts.greeting opts.personName,
      "",
      "Here\x27s your share of the bills for " ++ opts.monthLabel ++ ":",
      ""]
      ++ opts.bills.map textBillLine
      ++ ["",
        "  " ++ strRepeat "─" 30,
        "  Total you owe:         $" ++ toFixed2 opts.total,
        "",
        payLineOf opts.payMethod opts.payId,
        "",
        "Thanks, " ++ opts.fromName.getD "BillFlow"])

/-- `buildEmailHtml` (`emailTemplate.js` lines 16-219): both payloads from
one call. -/
def buildEmailHtml (opts : EmailOpts) : String × String :=
  (htmlOf opts, textOf opts)

/-! ## Theorems

First the generic lemmas about the string primitives, then one theorem per
specification claim. -/

theorem listPre_iff (pat l : List Char) : listPre pat l = true ↔ ∃ t, l = pat ++ t := by
  induction pat generalizing l with
  | nil => simp [listPre]
  | cons a as ih =>
    cases l with
    | nil => simp [listPre]
    | cons b bs =>
      simp only [listPre, Bool.and_eq_true, beq_iff_eq, ih bs]
      constructor
      · rintro ⟨rfl, t, rfl⟩; exact ⟨t, rfl⟩
      · rintro ⟨t, h⟩
        injection h with h1 h2
        exact ⟨h1.symm, t, h2⟩

theorem listHas_iff (pat l : List Char) : listHas pat l = true ↔ ∃ p q, l = p ++ pat ++ q := by
  induction l with
  | nil =>
    simp only [listHas, List.isEmpty_iff]
    constructor
    · rintro rfl; exact ⟨[], [], rfl⟩
    · rintro ⟨p, q, h⟩
      rcases List.append_eq_nil.mp (List.append_eq_nil.mp h.symm).1 with ⟨-, h2⟩
      exact h2
  | cons c cs ih =>
    simp only [listHas, Bool.or_eq_true, listPre_iff, ih]
    constructor
    · rintro (⟨t, h⟩ | ⟨p, q, h⟩)
      · exact ⟨[], t, by simpa using h⟩
      · exact ⟨c :: p, q, by simp [h]⟩
    · rintro ⟨p, q, h⟩
      cases p with
      | nil => exact Or.inl ⟨q, by simpa using h⟩
      | cons x xs =>
        injection h with h1 h2
        exact Or.inr ⟨xs, q, h2⟩

theorem strApp_data (a b : String) : (a ++ b).data = a.data ++ b.data :=
  String.data_append a b

theorem strHas_iff (s pat : String) : strHas s pat = true ↔ ∃ p q, s.data = p ++ pat.data ++ q :=
  listHas_iff pat.data s.data

theorem strHas_self (s : String) : strHas s s = true :=
  (strHas_iff s s).mpr ⟨[], [], by simp⟩

theorem strHas_appL {a pat : String} (b : String) (h : strHas a pat = true) :
    strHas (a ++ b) pat = true := by
  rcases (strHas_iff a pat).mp h with ⟨p, q, hd⟩
  exact (strHas_iff (a ++ b) pat).mpr ⟨p, q ++ b.data, by simp [strApp_data, hd]⟩

theorem strHas_appR (a : String) {b pat : String} (h : strHas b pat = true) :
    strHas (a ++ b) pat = true := by
  rcases (strHas_iff b pat).mp h with ⟨p, q, hd⟩
  exact (strHas_iff (a ++ b) pat).mpr ⟨a.data ++ p, q, by simp [strApp_data, hd]⟩

theorem strHas_trans {a b pat : String} (hab : strHas a b = true)
    (h : strHas b pat = true) : strHas a pat = true := by
  rcases (strHas_iff a b).mp hab with ⟨p, q, hd⟩
  rcases (strHas_iff b pat).mp h with ⟨p', q', hd'⟩
  exact (strHas_iff a pat).mpr ⟨p ++ p', q' ++ q, by simp [hd, hd']⟩

/-- A pattern that begins another pattern is found wherever the longer one is:
`s.includes(p ++ q) → s.includes(p)`. -/
theorem strHas_of_strHas_append {s p q : String} (h : strHas s (p ++ q) = true) :
    strHas s p = true := by
  rcases (strHas_iff s (p ++ q)).mp h with ⟨l, r, hd⟩
  rw [strApp_data] at hd
  exact (strHas_iff s p).mpr ⟨l, q.data ++ r, by simp [hd]⟩

theorem strHas_empty_left (pat : String) (h : pat ≠ "") : strHas "" pat = false := by
  cases hp : strHas "" pat with
  | false => rfl
  | true =>
    rcases (strHas_iff "" pat).mp hp with ⟨p, q, hd⟩
    have hnil : p ++ pat.data ++ q = [] := hd.symm
    have : pat.data = [] := (List.append_eq_nil.mp (List.append_eq_nil.mp hnil).1).2
    exact absurd (String.toList_inj.mp (by simpa using this)) h

theorem ne_empty_of_strHas_maskCheck {s : String} (h : strHas s maskCheck = true) : s ≠ "" := by
  intro he
  subst he
  rw [strHas_empty_left maskCheck (by decide)] at h
  exact Bool.noConfusion h

/-- The four-bullet check string starts the twelve-bullet marker, so any
string containing the full marker passes the merge's `includes('••••')`. -/
theorem strHas_maskCheck_of_marker {s : String} (h : strHas s maskMarker = true) :
    strHas s maskCheck = true := by
  have hsplit : maskMarker = maskCheck ++ "••••••••" := by decide
  rw [hsplit] at h
  exact strHas_of_strHas_append h

/-- Any masked value — four retained characters followed by the marker —
passes the merge's `includes('••••')` test. -/
theorem strHas_masked_maskCheck (t : String) : strHas (t ++ maskMarker) maskCheck = true :=
  strHas_appR t (strHas_maskCheck_of_marker (strHas_self maskMarker))

theorem mergeSecret_no_maskCheck {ex bo : Option String}
    (hex : ∀ s, ex = some s → strHas s maskCheck = false) :
    ∀ s, mergeSecret ex bo = some s → strHas s maskCheck = false := by
  intro s hm
  unfold mergeSecret at hm
  by_cases hg : (jsTruthy bo && strHas (bo.getD "") maskCheck) = true
  · rw [if_pos hg] at hm
    exact hex s hm
  · rw [if_neg hg] at hm
    cases bo with
    | none => exact hex s (by simpa [spreadF] using hm)
    | some t =>
      have hts : t = s := by simpa [spreadF] using hm
      subst hts
      by_cases ht : t = ""
      · subst ht; exact strHas_empty_left maskCheck (by decide)
      · cases hc : strHas t maskCheck with
        | false => rfl
        | true => exact absurd (by simp [jsTruthy, ht, hc]) hg

/-- Invariant of the only writer of the `email_config` row: no stored secret
field's value ever contains four consecutive bullets, because the merge
refuses to persist any incoming value that does. -/
theorem stored_secret_no_maskCheck (bodies : List EmailConfig) :
    ∀ (acc : Option EmailConfig),
      (∀ cfg, acc = some cfg → ∀ f s, getSF f cfg = some s → strHas s maskCheck = false) →
      ∀ cfg, bodies.foldl putEmailCfgStep acc = some cfg →
        ∀ f s, getSF f cfg = some s → strHas s maskCheck = false := by
  induction bodies with
  | nil => intro acc hacc cfg h; exact hacc cfg h
  | cons b bs ih =>
    intro acc hacc cfg h
    refine ih (putEmailCfgStep acc b) ?_ cfg h
    intro cfg' hstep f s hget
    unfold putEmailCfgStep at hstep
    by_cases hb : jsTruthy b.provider = true
    · rw [if_pos hb] at hstep
      injection hstep with hstep
      subst hstep
      have hexf : ∀ f s, getSF f (acc.getD emptyCfg) = some s → strHas s maskCheck = false := by
        cases acc with
        | none => intro f s hf; cases f <;> exact Option.noConfusion hf
        | some c => exact hacc c rfl
      cases f with
      | mailgunApiKey => exact mergeSecret_no_maskCheck (fun s hs => hexf .mailgunApiKey s hs) s hget
      | sendgridApiKey => exact mergeSecret_no_maskCheck (fun s hs => hexf .sendgridApiKey s hs) s hget
      | resendApiKey => exact mergeSecret_no_maskCheck (fun s hs => hexf .resendApiKey s hs) s hget
      | smtpPass => exact mergeSecret_no_maskCheck (fun s hs => hexf .smtpPass s hs) s hget
    · rw [if_neg hb] at hstep
      exact hacc cfg' hstep f s hget

/-- Claim C1: for every stored email configuration (every configuration the
program can have persisted through `PUT /api/email/config`) in which a secret
field holds a string of length at least 4, `maskConfig` — the masking applied
by `GET /api/email/config` — returns that field as exactly the first four
characters of the stored value followed by the fixed redaction marker, and
that masked value is never the full original secret. -/
theorem maskConfig_masks_stored_secret (bodies : List EmailConfig) (cfg : EmailConfig)
    (f : SecretField) (s : String) (hst : storedAfter bodies = some cfg)
    (hs : getSF f cfg = some s) (hlen : 4 ≤ s.length) :
    maskConfig (some cfg) = some (maskCfgCore cfg)
    ∧ getSF f (maskCfgCore cfg) = some (s.take 4 ++ maskMarker)
    ∧ getSF f (maskCfgCore cfg) ≠ some s := by
  have hne : s ≠ "" := by
    intro he
    subst he
    simp [String.length] at hlen
  have hmask : getSF f (maskCfgCore cfg) = some (s.take 4 ++ maskMarker) := by
    cases f <;> simp_all [maskCfgCore, getSF, maskField, jsTruthy]
  refine ⟨rfl, hmask, ?_⟩
  rw [hmask]
  intro heq
  injection heq with heq
  have hno : strHas s maskCheck = false :=
    stored_secret_no_maskCheck bodies none (fun cfg h => Option.noConfusion h) cfg hst f s hs
  have hyes := strHas_masked_maskCheck (s.take 4)
  rw [heq, hno] at hyes
  exact Bool.noConfusion hyes

/-- Witness for C1: one saved configuration with `smtpPass = "hunter22"`;
masking yields `"hunt" ++ marker`, which differs from the stored secret. -/
theorem maskConfig_masks_stored_secret_witness :
    getSF .smtpPass (maskCfgCore
        ⟨some "smtp", none, none, none, none, none, none, none, none, none, none, none,
          some "hunter22"⟩) = some ("hunter22".take 4 ++ maskMarker)
    ∧ getSF .smtpPass (maskCfgCore
        ⟨some "smtp", none, none, none, none, none, none, none, none, none, none, none,
          some "hunter22"⟩) ≠ some "hunter22" := by
  have h := maskConfig_masks_stored_secret
    [⟨some "smtp", none, none, none, none, none, none, none, none, none, none, none,
      some "hunter22"⟩]
    ⟨some "smtp", none, none, none, none, none, none, none, none, none, none, none,
      some "hunter22"⟩
    .smtpPass "hunter22" (by rfl) (by rfl) (by decide)
  exact ⟨h.2.1, h.2.2⟩

/-- Counterexample to claim C2 as stated: the incoming secret
`"ab••••cd"` does not contain the redaction marker (twelve bullets), so the
claim says it replaces the stored secret; the merge's `includes('••••')`
test nevertheless fires and the previously stored `"oldsecret"` is kept. -/
theorem merge_keeps_secret_without_marker :
    strHas "ab••••cd" maskMarker = false
    ∧ (mergeConfig
        ⟨some "smtp", none, none, none, none, none, none, none, none, none, none, none,
          some "oldsecret"⟩
        ⟨some "smtp", none, none, none, none, none, none, none, none, none, none, none,
          some "ab••••cd"⟩).smtpPass = some "oldsecret"
    ∧ (mergeConfig
        ⟨some "smtp", none, none, none, none, none, none, none, none, none, none, none,
          some "oldsecret"⟩
        ⟨some "smtp", none, none, none, none, none, none, none, none, none, none, none,
          some "ab••••cd"⟩).smtpPass ≠ some "ab••••cd" := by
  refine ⟨by decide, by decide, by decide⟩

/-- Claim C2 (amended): the guard the merge of `PUT /api/email/config`
actually applies tests for four consecutive bullet characters `'••••'` — a
proper prefix of the redaction marker — not for the full marker.  An incoming
secret value containing the full marker (in particular an unchanged masked
placeholder) leaves the previously stored value untouched; so does any
incoming value containing `'••••'`; an incoming value free of `'••••'`
replaces the stored value. -/
theorem merge_preserves_or_replaces_secret (ex bo : EmailConfig) (f : SecretField)
    (s : String) (hbo : getSF f bo = some s) :
    (strHas s maskMarker = true → getSF f (mergeConfig ex bo) = getSF f ex)
    ∧ (strHas s maskCheck = true → getSF f (mergeConfig ex bo) = getSF f ex)
    ∧ (strHas s maskCheck = false → getSF f (mergeConfig ex bo) = some s) := by
  have hkeep : strHas s maskCheck = true → getSF f (mergeConfig ex bo) = getSF f ex := by
    intro hc
    have hne : s ≠ "" := ne_empty_of_strHas_maskCheck hc
    cases f <;>
      simp_all [mergeConfig, getSF, mergeSecret, jsTruthy]
  refine ⟨fun hm => hkeep (strHas_maskCheck_of_marker hm), hkeep, ?_⟩
  intro hc
  cases f <;>
    simp_all [mergeConfig, getSF, mergeSecret, jsTruthy, spreadF]

/-- Witness for C2: a genuinely new secret (`"newpass"`, no bullets) replaces
the stored one. -/
theorem merge_preserves_or_replaces_secret_witness :
    getSF .smtpPass (mergeConfig
      ⟨some "smtp", none, none, none, none, none, none, none, none, none, none, none,
        some "oldsecret"⟩
      ⟨some "smtp", none, none, none, none, none, none, none, none, none, none, none,
        some "newpass"⟩) = some "newpass" :=
  (merge_preserves_or_replaces_secret
    ⟨some "smtp", none, none, none, none, none, none, none, none, none, none, none,
      some "oldsecret"⟩
    ⟨some "smtp", none, none, none, none, none, none, none, none, none, none, none,
      some "newpass"⟩
    .smtpPass "newpass" (by rfl)).2.2 (by decide)

theorem maskField_eq (v : Option String) :
    maskField v =
      (match v with
      | none => none
      | some s => if s = "" then some s else some (s.take 4 ++ maskMarker)) := by
  cases v with
  | none => rfl
  | some s => by_cases hs : s = "" <;> simp [maskField, jsTruthy, hs]

/-- Claim C10: `maskConfig` changes at most the four secret fields.  On a
`null` config it returns `null`; on any other config every non-secret field
is returned unchanged, an absent secret field stays absent, an empty secret
field stays empty, and a non-empty secret field becomes its first four
characters plus the marker. -/
theorem maskConfig_frame :
    maskConfig none = none
    ∧ ∀ c : EmailConfig,
        maskConfig (some c) = some (maskCfgCore c)
        ∧ (maskCfgCore c).provider = c.provider
        ∧ (maskCfgCore c).fromName = c.fromName
        ∧ (maskCfgCore c).fromEmail = c.fromEmail
        ∧ (maskCfgCore c).mailgunDomain = c.mailgunDomain
        ∧ (maskCfgCore c).mailgunRegion = c.mailgunRegion
        ∧ (maskCfgCore c).smtpHost = c.smtpHost
        ∧ (maskCfgCore c).smtpPort = c.smtpPort
        ∧ (maskCfgCore c).smtpSecure = c.smtpSecure
        ∧ (maskCfgCore c).smtpUser = c.smtpUser
        ∧ ∀ f : SecretField,
            getSF f (maskCfgCore c) =
              (match getSF f c with
              | none => none
              | some s => if s = "" then some s else some (s.take 4 ++ maskMarker)) := by
  refine ⟨rfl, fun c => ⟨rfl, rfl, rfl, rfl, rfl, rfl, rfl, rfl, rfl, rfl, fun f => ?_⟩⟩
  cases f <;> exact maskField_eq _

theorem foldlM_setStateE_ok (os : Oracle) (strfy : Json → String) (u : String) :
    ∀ (l : List (String × Json)) (st st' : Store),
      l.foldlM (fun acc kv => setStateE os acc u kv.1 (strfy kv.2)) st = .ok st' →
      st' = l.foldl (fun acc kv => setStateRun acc u kv.1 (strfy kv.2)) st := by
  intro l
  induction l with
  | nil => intro st st' h; injection h with h; exact h.symm
  | cons kv rest ih =>
    intro st st' h
    rw [List.foldlM_cons] at h
    unfold setStateE at h
    by_cases ho : os u kv.1 (strfy kv.2) = true
    · rw [if_pos ho] at h
      exact ih _ st' h
    · rw [if_neg ho] at h
      exact Except.noConfusion h

theorem foldlM_setMonthE_ok (om : Oracle) (strfy : Json → String) (u : String) :
    ∀ (l : List (String × Json)) (st st' : Store),
      l.foldlM (fun acc kv => setMonthE om acc u kv.1 (strfy kv.2)) st = .ok st' →
      st' = l.foldl (fun acc kv => setMonthRun acc u kv.1 (strfy kv.2)) st := by
  intro l
  induction l with
  | nil => intro st st' h; injection h with h; exact h.symm
  | cons kv rest ih =>
    intro st st' h
    rw [List.foldlM_cons] at h
    unfold setMonthE at h
    by_cases ho : om u kv.1 (strfy kv.2) = true
    · rw [if_pos ho] at h
      exact ih _ st' h
    · rw [if_neg ho] at h
      exact Except.noConfusion h

/-- A transaction body that commits has performed exactly the full sequential
application of its writes. -/
theorem importBody_ok_eq_pure (os om : Oracle) (strfy : Json → String) (u : String)
    (s m : List (String × Json)) (st st' : Store)
    (h : importBody os om strfy u s m st = .ok st') :
    st' = importPure strfy u s m st := by
  unfold importBody at h
  cases hs : s.foldlM (fun acc kv => setStateE os acc u kv.1 (strfy kv.2)) st with
  | error e => rw [hs] at h; exact Except.noConfusion h
  | ok st1 =>
    rw [hs] at h
    have h1 := foldlM_setStateE_ok os strfy u s st st1 hs
    have h2 := foldlM_setMonthE_ok om strfy u m st1 st' (by simpa [bind, Except.bind] using h)
    rw [h2, h1]
    rfl

/-- Claim C3: the `{state, monthly}` batch write of `POST /api/import` and the
multi-key save of `PUT /api/state` are atomic.  If the transaction body
raises (some individual write fails), the observable store is exactly the
store before the call; if it commits, every settings and monthly write of
the batch has been applied. -/
theorem import_and_save_atomic (os om : Oracle) (strfy : Json → String) (u : String)
    (s m entries : List (String × Json)) (st : Store) :
    (∀ e, importBody os om strfy u s m st = .error e → importApi os om strfy u s m st = st)
    ∧ (∀ st', importBody os om strfy u s m st = .ok st' →
        importApi os om strfy u s m st = st' ∧ st' = importPure strfy u s m st)
    ∧ (∀ e, saveManyBody os strfy u entries st = .error e → saveManyApi os strfy u entries st = st)
    ∧ (∀ st', saveManyBody os strfy u entries st = .ok st' →
        saveManyApi os strfy u entries st = st' ∧ st' = saveManyPure strfy u entries st) := by
  refine ⟨fun e h => ?_, fun st' h => ⟨?_, importBody_ok_eq_pure os om strfy u s m st st' h⟩,
    fun e h => ?_, fun st' h => ⟨?_, foldlM_setStateE_ok os strfy u entries st st' h⟩⟩
  · unfold importApi runTxn; rw [h]
  · unfold importApi runTxn; rw [h]
  · unfold saveManyApi runTxn; rw [h]
  · unfold saveManyApi runTxn; rw [h]

/-- Witness for C3: with an environment in which every write fails the store
is untouched; with one in which every write succeeds the full batch is
applied. -/
theorem import_and_save_atomic_witness :
    importApi (fun _ _ _ => false) (fun _ _ _ => false) (fun _ => "null") "local"
        [("people", Json.null)] [] emptyStore = emptyStore
    ∧ importApi (fun _ _ _ => true) (fun _ _ _ => true) (fun _ => "null") "local"
        [("people", Json.null)] [("2024-01", Json.null)] emptyStore
      = importPure (fun _ => "null") "local" [("people", Json.null)] [("2024-01", Json.null)]
          emptyStore := by
  constructor
  · exact (import_and_save_atomic (fun _ _ _ => false) (fun _ _ _ => false) (fun _ => "null")
      "local" [("people", Json.null)] [] [] emptyStore).1 () (by rfl)
  · exact ((import_and_save_atomic (fun _ _ _ => true) (fun _ _ _ => true) (fun _ => "null")
      "local" [("people", Json.null)] [("2024-01", Json.null)] [] emptyStore).2.1
      (importPure (fun _ => "null") "local" [("people", Json.null)] [("2024-01", Json.null)]
        emptyStore) (by rfl)).1

/-- Claim C4: for every tenant, every month key matching `YYYY-MM`, and every
JSON-serializable value (one the runtime codec round-trips), writing the
month record through `PUT /api/months/:key` and reading it back through
`GET /api/months/:key` returns exactly the value written. -/
theorem putMonth_getMonth_roundtrip (strfy : Json → String) (parse : String → Option Json)
    (st : Store) (u k : String) (v : Json) (hround : parse (strfy v) = some v)
    (hk : matchesMonthKey k = true) :
    (putMonthApi strfy st u k v).map (fun st' => getMonthApi parse st' u k) = .ok v := by
  unfold putMonthApi
  simp only [hk, if_true]
  unfold Except.map getMonthApi setMonthRun updFun
  simp [hround]

/-- Witness for C4: a concrete codec, tenant, key and value. -/
theorem putMonth_getMonth_roundtrip_witness :
    (putMonthApi (fun _ => "7") emptyStore "local" "2024-03" (Json.num 7)).map
      (fun st' => getMonthApi (fun _ => some (Json.num 7)) st' "local" "2024-03")
    = .ok (Json.num 7) :=
  putMonth_getMonth_roundtrip (fun _ => "7") (fun _ => some (Json.num 7)) emptyStore
    "local" "2024-03" (Json.num 7) rfl (by decide)

theorem monthsValid_empty : monthsValid emptyStore := by
  intro u k h
  exact absurd rfl h

theorem monthsValid_setState (st : Store) (u k v : String) (hst : monthsValid st) :
    monthsValid (setStateRun st u k v) := by
  intro u' k' h
  exact hst u' k' h

theorem monthsValid_setMonth (st : Store) (u k v : String) (hst : monthsValid st)
    (hk : matchesMonthKey k = true) : monthsValid (setMonthRun st u k v) := by
  intro u' k' h
  unfold setMonthRun updFun at h
  by_cases hc : u' = u ∧ k' = k
  · rw [hc.2]; exact hk
  · simp only [if_neg hc] at h
    exact hst u' k' h

theorem monthsValid_delMonth (st : Store) (u k : String) (hst : monthsValid st) :
    monthsValid (delMonthRun st u k) := by
  intro u' k' h
  unfold delMonthRun updFun at h
  by_cases hc : u' = u ∧ k' = k
  · simp only [if_pos hc] at h
    exact absurd rfl h
  · simp only [if_neg hc] at h
    exact hst u' k' h

theorem monthsValid_foldl_setState (strfy : Json → String) (u : String) :
    ∀ (l : List (String × Json)) (st : Store), monthsValid st →
      monthsValid (l.foldl (fun acc kv => setStateRun acc u kv.1 (strfy kv.2)) st) := by
  intro l
  induction l with
  | nil => intro st hst; exact hst
  | cons kv rest ih =>
    intro st hst
    exact ih _ (monthsValid_setState st u kv.1 (strfy kv.2) hst)

theorem monthsValid_foldl_setMonth (strfy : Json → String) (u : String) :
    ∀ (l : List (String × Json)) (st : Store), monthsValid st →
      (∀ kv ∈ l, matchesMonthKey kv.1 = true) →
      monthsValid (l.foldl (fun acc kv => setMonthRun acc u kv.1 (strfy kv.2)) st) := by
  intro l
  induction l with
  | nil => intro st hst _; exact hst
  | cons kv rest ih =>
    intro st hst hall
    exact ih _ (monthsValid_setMonth st u kv.1 (strfy kv.2) hst (hall kv (List.mem_cons_self kv rest)))
      fun kv' h => hall kv' (List.mem_cons_of_mem kv h)

/-- Counterexample to claim C5 as stated: `POST /api/import` performs no
month-key validation, so the batch `{monthly: {"bogus": null}}` reaches a
state storing the month key `"bogus"`, which does not match `YYYY-MM`. -/
theorem import_stores_invalid_month_key :
    (runOps (fun _ => "null") [StOp.importB "local" [] [("bogus", Json.null)]]).monthly
        "local" "bogus" ≠ none
    ∧ matchesMonthKey "bogus" = false :=
  ⟨by decide, by decide⟩

/-- Claim C5 (amended): the stored `YYYY-MM` invariant holds for every state
reached by single-month writes (which the route validates), deletes, and
the import batches whose monthly keys all match the pattern; the import batch
write itself performs no validation, so a batch carrying a non-matching key
violates the invariant. -/
theorem runOps_monthsValid (strfy : Json → String) (ops : List StOp)
    (h : ∀ op ∈ ops, opValid op) : monthsValid (runOps strfy ops) := by
  unfold runOps
  have main : ∀ (l : List StOp) (st : Store), monthsValid st → (∀ op ∈ l, opValid op) →
      monthsValid (l.foldl (stepOp strfy) st) := by
    intro l
    induction l with
    | nil => intro st hst _; exact hst
    | cons op rest ih =>
      intro st hst hall
      refine ih _ ?_ fun op' h' => hall op' (List.mem_cons_of_mem op h')
      have hop := hall op (List.mem_cons_self op rest)
      cases op with
      | putMonth u k v =>
        simp only [stepOp]
        by_cases hk : matchesMonthKey k = true
        · rw [if_pos hk]
          exact monthsValid_setMonth st u k (strfy v) hst hk
        · rw [if_neg hk]
          exact hst
      | importB u s m =>
        simp only [stepOp, importPure]
        exact monthsValid_foldl_setMonth strfy u m _
          (monthsValid_foldl_setState strfy u s st hst) hop
      | delMonth u k => exact monthsValid_delMonth st u k hst
  exact main ops emptyStore monthsValid_empty h

/-- Witness for C5 (amended): a validated single-month write reaches a state
satisfying the invariant. -/
theorem runOps_monthsValid_witness :
    monthsValid (runOps (fun _ => "null") [StOp.putMonth "local" "2024-01" Json.null]) :=
  runOps_monthsValid (fun _ => "null") [StOp.putMonth "local" "2024-01" Json.null]
    (by intro op hop; rw [List.mem_singleton.mp hop]; trivial)

/-- Counterexample to claim C6 as stated: a settings row whose payload fails
to deserialize is returned by `GET /api/state` with the raw stored text as
its value — neither an empty nor an absent result for that entry. -/
theorem state_read_surfaces_raw_string :
    (stateFromRows (fun _ => none) [("k", "oops")]).lookup "k" = some (Json.str "oops")
    ∧ Json.str "oops" ≠ Json.obj []
    ∧ Json.str "oops" ≠ Json.str ""
    ∧ Json.str "oops" ≠ Json.null := by
  refine ⟨rfl, fun h => Json.noConfusion h, fun h => ?_, fun h => Json.noConfusion h⟩
  injection h with h
  exact absurd h (by decide)

/-- Claim C6 (amended): a month read through `GET /api/months/:key` whose
stored payload fails to deserialize yields `{}`; `GET /api/months` silently
skips such entries; `GET /api/state` substitutes the raw stored text (as a
string value) for such an entry.  In every case the failure is absorbed
locally — no read propagates an error to the caller. -/
theorem lenient_read_policy :
    (∀ (parse : String → Option Json) (st : Store) (u k raw : String),
      st.monthly u k = some raw → parse raw = none → getMonthApi parse st u k = Json.obj [])
    ∧ (∀ (parse : String → Option Json) (rows : List (String × String)) (e : String × Json),
        e ∈ monthsFromRows parse rows → ∃ raw, (e.1, raw) ∈ rows ∧ parse raw = some e.2)
    ∧ (∀ (parse : String → Option Json) (rows : List (String × String)) (k raw : String),
        (k, raw) ∈ rows → parse raw = none →
          (k, Json.str raw) ∈ stateFromRows parse rows) := by
  refine ⟨?_, ?_, ?_⟩
  · intro parse st u k raw hrow hp
    unfold getMonthApi
    rw [hrow]
    simp only [hp]
    rfl
  · intro parse rows e he
    unfold monthsFromRows at he
    rcases List.mem_filterMap.mp he with ⟨r, hr, hmap⟩
    cases hp : parse r.2 with
    | none => rw [hp] at hmap; exact Option.noConfusion hmap
    | some j =>
      rw [hp] at hmap
      injection hmap with hmap
      refine ⟨r.2, ?_, ?_⟩
      · rw [← hmap]; simpa using hr
      · rw [← hmap, hp]
  · intro parse rows k raw hin hp
    unfold stateFromRows
    refine List.mem_map.mpr ⟨(k, raw), hin, ?_⟩
    simp [hp]

/-- Witness for C6 (amended): a concrete corrupt month row reads back as `{}`. -/
theorem lenient_read_policy_witness :
    getMonthApi (fun _ => none) (setMonthRun emptyStore "local" "2024-01" "corrupt")
      "local" "2024-01" = Json.obj [] :=
  lenient_read_policy.1 (fun _ => none) (setMonthRun emptyStore "local" "2024-01" "corrupt")
    "local" "2024-01" "corrupt" (by decide) rfl

/-- Claim C7: `sendEmail` fails — returning an error, never a network
action — when the config is absent, when the provider discriminator is
falsy, when no sender address is configured, or when the recipient is empty;
and a truthy provider outside the four recognized values is a fatal
`Unknown provider` error rather than a silent no-op. -/
theorem sendEmail_guards (c : EmailConfig) (toAddr subject html text : String) :
    sendEmailM none toAddr subject html text = .error "No email provider configured"
    ∧ (jsTruthy c.provider = false →
        sendEmailM (some c) toAddr subject html text = .error "No email provider configured")
    ∧ (jsTruthy c.provider = true → jsTruthy c.fromEmail = false →
        sendEmailM (some c) toAddr subject html text = .error "No sender email configured")
    ∧ (jsTruthy c.provider = true → jsTruthy c.fromEmail = true → toAddr = "" →
        sendEmailM (some c) toAddr subject html text = .error "No recipient email address")
    ∧ (∀ p, c.provider = some p →
        p ∉ (["mailgun", "sendgrid", "resend", "smtp"] : List String) → p ≠ "" →
        jsTruthy c.fromEmail = true → toAddr ≠ "" →
        sendEmailM (some c) toAddr subject html text = .error ("Unknown provider: " ++ p)) := by
  refine ⟨rfl, fun h1 => ?_, fun h1 h2 => ?_, fun h1 h2 h3 => ?_, fun p hp hmem hpe h2 h3 => ?_⟩
  · simp only [sendEmailM]
    rw [h1]
    rfl
  · simp only [sendEmailM]
    rw [h1, h2]
    rfl
  · simp only [sendEmailM]
    rw [h1, h2]
    simp [h3]
  · have h1 : jsTruthy c.provider = true := by simp [jsTruthy, hp, hpe]
    simp only [sendEmailM]
    rw [h1, h2]
    simp only [Bool.true_eq_false, if_false, if_neg h3]
    rw [hp]
    simp only [Option.getD_some]
    have hm : p ≠ "mailgun" := fun h => hmem (by simp [h])
    have hs : p ≠ "sendgrid" := fun h => hmem (by simp [h])
    have hr : p ≠ "resend" := fun h => hmem (by simp [h])
    have ht : p ≠ "smtp" := fun h => hmem (by simp [h])
    split
    · exact absurd rfl hm
    · exact absurd rfl hs
    · exact absurd rfl hr
    · exact absurd rfl ht
    · rfl

/-- Witness for C7: a config whose provider is the unrecognized `"pigeon"`
fails with the fatal `Unknown provider` error. -/
theorem sendEmail_guards_witness :
    sendEmailM
      (some ⟨some "pigeon", none, some "a@b.c", none, none, none, none, none, none, none,
        none, none, none⟩) "x@y.z" "s" "h" "t" = .error ("Unknown provider: " ++ "pigeon") :=
  (sendEmail_guards
    ⟨some "pigeon", none, some "a@b.c", none, none, none, none, none, none, none,
      none, none, none⟩ "x@y.z" "s" "h" "t").2.2.2.2
    "pigeon" rfl (by decide) (by decide) (by decide) (by decide)

theorem strAppend_assoc (a b c : String) : a ++ b ++ c = a ++ (b ++ c) := by
  apply String.toList_inj.mp
  show (a ++ b ++ c).data = (a ++ (b ++ c)).data
  simp [strApp_data]

theorem encodeList_append (l1 l2 : List Char) :
    encodeList (l1 ++ l2) = encodeList l1 ++ encodeList l2 := by
  induction l1 with
  | nil =>
    show encodeList l2 = "" ++ encodeList l2
    apply String.toList_inj.mp
    show (encodeList l2).data = ("" ++ encodeList l2).data
    simp [strApp_data]
  | cons c cs ih =>
    show encChar c ++ encodeList (cs ++ l2) = encChar c ++ encodeList cs ++ encodeList l2
    rw [ih, strAppend_assoc]

/-- `encodeURIComponent` is a homomorphism for concatenation: it encodes
character by character. -/
theorem encodeURIComponent_append (a b : String) :
    encodeURIComponent (a ++ b) = encodeURIComponent a ++ encodeURIComponent b := by
  unfold encodeURIComponent
  rw [strApp_data]
  exact encodeList_append a.data b.data

/-- Any pattern found in the payment-button block is found in the full HTML
document. -/
theorem htmlOf_has_payButton (opts : EmailOpts) (pat : String)
    (h : strHas (payButtonOf (opts.accentColor.getD "#a8e063") opts.personName
      opts.monthLabel opts.total opts.payMethod opts.payId) pat = true) :
    strHas (htmlOf opts) pat = true := by
  simp only [htmlOf]
  iterate 3 apply strHas_appL
  exact strHas_appR _ h

/-- Any line of the joined plain-text output is a substring of it. -/
theorem strHas_joinNl_mem (l : List String) (x : String) (hx : x ∈ l) :
    strHas (joinNl l) x = true := by
  induction l with
  | nil => cases hx
  | cons a rest ih =>
    cases rest with
    | nil =>
      rw [List.mem_singleton] at hx
      subst hx
      exact strHas_self x
    | cons b bs =>
      simp only [joinNl]
      rcases List.mem_cons.mp hx with rfl | hx'
      · exact strHas_appL _ (strHas_appL _ (strHas_self x))
      · exact strHas_appR _ (ih hx')

/-- Claim C8: `buildEmailHtml` called with payment method `zelle`, payment
identifier `"555-1234"` and total `144.99` (14499 cents) — whatever the
remaining options — yields an HTML payload containing the Zelle enrollment
URL, that URL contains the total formatted as `144.99`, and the plain-text
payload contains the line `Please pay via Zelle to 555-1234.`. -/
theorem build_zelle_email (g : Option String) (pn : String) (ac : Option String)
    (ml : String) (bs : List (String × Nat)) (fn : Option String) :
    strHas (buildEmailHtml ⟨g, pn, ac, ml, bs, 14499, "zelle", some "555-1234", fn⟩).1
        (zelleUrlOf pn "555-1234" 14499) = true
    ∧ strHas (zelleUrlOf pn "555-1234" 14499) "144.99" = true
    ∧ strHas (buildEmailHtml ⟨g, pn, ac, ml, bs, 14499, "zelle", some "555-1234", fn⟩).2
        "Please pay via Zelle to 555-1234." = true := by
  refine ⟨?_, ?_, ?_⟩
  · show strHas (htmlOf _) _ = true
    apply htmlOf_has_payButton
    show strHas (payButtonOf (ac.getD "#a8e063") pn ml 14499 "zelle" (some "555-1234")) _ = true
    have hpb : payButtonOf (ac.getD "#a8e063") pn ml 14499 "zelle" (some "555-1234")
        = zelleButtonHtml (ac.getD "#a8e063") pn "555-1234" 14499 := by
      simp [payButtonOf, jsTruthy]
    rw [hpb]
    simp only [zelleButtonHtml]
    iterate 7 apply strHas_appL
    exact strHas_appR _ (strHas_self _)
  · unfold zelleUrlOf
    apply strHas_appR
    simp only [zelleDataStr]
    rw [encodeURIComponent_append, encodeURIComponent_append, encodeURIComponent_append,
      encodeURIComponent_append, encodeURIComponent_append, encodeURIComponent_append]
    apply strHas_appL
    exact strHas_appR _ (by decide)
  · show strHas (textOf _) _ = true
    have hpl : payLineOf "zelle" (some "555-1234") = "Please pay via Zelle to 555-1234." := by
      decide
    rw [← hpl]
    unfold textOf
    apply strHas_joinNl_mem
    simp

theorem removeAtList_of_not_mem : ∀ (l : List Char), '@' ∉ l → removeAtList l = l
  | [], _ => rfl
  | c :: cs, h => by
    have hc : ¬c = '@' := fun hc => h (hc ▸ List.mem_cons_self c cs)
    simp only [removeAtList, if_neg hc]
    rw [removeAtList_of_not_mem cs fun hm => h (List.mem_cons_of_mem c hm)]

theorem removeAtList_first : ∀ (p q : List Char), '@' ∉ p →
    removeAtList (p ++ '@' :: q) = p ++ q
  | [], q, _ => by simp [removeAtList]
  | c :: cs, q, h => by
    have hc : ¬c = '@' := fun hc => h (hc ▸ List.mem_cons_self c cs)
    simp only [List.cons_append, removeAtList, if_neg hc, List.append_eq]
    rw [removeAtList_first cs q fun hm => h (List.mem_cons_of_mem c hm)]

/-- Claim C9 (amended): for every input with payment method `venmo` and a
non-empty payment identifier, the HTML payload contains the Venmo charge
deep link built from the handle `payId.replace('@','')`, the total in
two-decimal fixed formatting, and the note `Bills <monthLabel>`
percent-encoded.  The handle is the identifier with its first `'@'`
occurrence — wherever it sits, not only a leading one — removed; an
identifier containing no `'@'` is used unchanged. -/
theorem build_venmo_email (g : Option String) (pn : String) (ac : Option String)
    (ml : String) (bs : List (String × Nat)) (total : Nat) (fn : Option String)
    (s : String) (hs : s ≠ "") :
    strHas (buildEmailHtml ⟨g, pn, ac, ml, bs, total, "venmo", some s, fn⟩).1
        (venmoUrlOf (jsReplaceAt s) total ml) = true
    ∧ ('@' ∉ s.data → jsReplaceAt s = s)
    ∧ (∀ p q, s.data = p ++ '@' :: q → '@' ∉ p → (jsReplaceAt s).data = p ++ q) := by
  refine ⟨?_, ?_, ?_⟩
  · show strHas (htmlOf _) _ = true
    apply htmlOf_has_payButton
    show strHas (payButtonOf (ac.getD "#a8e063") pn ml total "venmo" (some s)) _ = true
    have hpb : payButtonOf (ac.getD "#a8e063") pn ml total "venmo" (some s)
        = venmoButtonHtml (ac.getD "#a8e063") (jsReplaceAt s) total ml := by
      simp [payButtonOf, jsTruthy, hs]
    rw [hpb]
    simp only [venmoButtonHtml]
    iterate 7 apply strHas_appL
    exact strHas_appR _ (strHas_self _)
  · intro hnm
    show String.mk (removeAtList s.data) = s
    rw [removeAtList_of_not_mem s.data hnm]
  · intro p q hpq hnp
    show (String.mk (removeAtList s.data)).data = p ++ q
    rw [hpq]
    exact removeAtList_first p q hnp

/-- Witness for C9 (amended): the handle `"@alice"` with concrete options. -/
theorem build_venmo_email_witness :
    strHas (buildEmailHtml ⟨some "Hey,", "Bob", none, "May 2026", [], 14499, "venmo",
        some "@alice", none⟩).1
      (venmoUrlOf (jsReplaceAt "@alice") 14499 "May 2026") = true :=
  (build_venmo_email (some "Hey,") "Bob" none "May 2026" [] 14499 none "@alice"
    (by decide)).1

set_option maxRecDepth 100000 in
/-- Counterexample to claim C9 as stated: for the identifier `"a@b"` — which
has no leading `'@'` and so, per the claim, should be used unchanged — the
builder's payment-action block is the Venmo button for handle `"ab"` (the
first `'@'`, though interior, was removed), not the claimed one for `"a@b"`;
the block does not contain the claimed deep link, and the plain-text payload
likewise says `Venmo @ab.`, not `Venmo @a@b.`. -/
theorem venmo_strips_inner_at :
    jsReplaceAt "a@b" ≠ "a@b"
    ∧ payButtonOf "#a8e063" "Bob" "May" 14499 "venmo" (some "a@b")
        = venmoButtonHtml "#a8e063" "ab" 14499 "May"
    ∧ payButtonOf "#a8e063" "Bob" "May" 14499 "venmo" (some "a@b")
        ≠ venmoButtonHtml "#a8e063" "a@b" 14499 "May"
    ∧ strHas (venmoButtonHtml "#a8e063" "ab" 14499 "May") (venmoUrlOf "a@b" 14499 "May") = false
    ∧ strHas (buildEmailHtml ⟨none, "Bob", none, "May", [], 14499, "venmo",
        some "a@b", none⟩).2 "Please pay via Venmo @ab." = true
    ∧ strHas (buildEmailHtml ⟨none, "Bob", none, "May", [], 14499, "venmo",
        some "a@b", none⟩).2 "Please pay via Venmo @a@b." = false := by
  refine ⟨by decide, by decide, by decide, by decide, by decide, by decide⟩

end BillHive
